import Mathlib

/-!
Verification development for the product-importer ingestion pipeline.

The definitions below are a shallow embedding of the Python source in
`productimporter/product/views.py` and `productimporter/product/models.py`:
pure data transformations are translated to Lean functions, the database
rows become explicit records, and the points where the environment may
raise exceptions (a whole-batch transaction failing at exit, a single
upsert failing, a row raising mid-parse, the final session save failing,
an HTTP delivery failing) are made explicit parameters of the functions
that catch those exceptions.
-/

namespace ProductImporter

/-! ## Python string primitives

Structurally recursive embeddings of the `str` methods the source uses
(`upper`, `lower`, `strip`, `endswith`), so that concrete runs evaluate
inside the kernel.  They agree with Python on the ASCII inputs the claims
exercise. -/

/-- `str.upper()`. -/
def pyUpper (s : String) : String := ⟨s.data.map Char.toUpper⟩

/-- `str.lower()`. -/
def pyLower (s : String) : String := ⟨s.data.map Char.toLower⟩

/-- `str.strip()`. -/
def pyStrip (s : String) : String :=
  ⟨((s.data.dropWhile Char.isWhitespace).reverse.dropWhile
      Char.isWhitespace).reverse⟩

/-- `str.endswith(suffix)`. -/
def pyEndsWith (s suffix : String) : Bool :=
  suffix.data.isSuffixOf s.data

/-! ## Data model (`models.py`) -/

/-- A `decimal.Decimal` value: the exact decimal `m / 10 ^ e`.  Python
keeps the scale of the literal, so two records read from different
literals of the same value compare equal exactly when their literals had
the same scale, as in the source. -/
structure Dec where
  m : Int
  e : Nat
deriving DecidableEq, Repr

/-- A row of the `Product` table.  `price` is a `DecimalField`; decimal
values are embedded as rationals. -/
structure Product where
  sku : String
  name : String
  price : Dec
  description : String
  active : Bool
deriving DecidableEq, Repr

/-- `Product.save` uppercases the SKU before writing
(case-insensitive uniqueness, `models.py` lines 30-33). -/
def Product.save (p : Product) : Product :=
  { p with sku := pyUpper p.sku }

/-- A row of the `ImportSession` table: the progress counters, status and
error log persisted for pollers. -/
structure SessionRec where
  total_rows : Nat
  processed_rows : Nat
  success_count : Nat
  error_count : Nat
  status : String
  error_log : Option String
deriving DecidableEq, Repr

/-- A row of the `Webhook` table, including the delivery diagnostics
fields (`last_test_*`). -/
structure Webhook where
  name : String
  url : String
  event_type : String
  is_active : Bool
  secret_key : Option String
  last_test_at : Option Nat
  last_test_status : Option String
  last_test_response_time : Option Rat
  last_test_response_code : Option Nat
deriving DecidableEq, Repr

/-! ## Store model

The `Product` table is a list of rows; the database-level unique
constraint on `sku` is expressed by the predicates below. -/

/-- Every stored SKU is already in canonical (upper-cased) form; this is
what `Product.save` guarantees for rows written through the model. -/
def AllUpper (s : List Product) : Prop :=
  ∀ p ∈ s, pyUpper p.sku = p.sku

/-- No two stored rows share the same case-normalized SKU (the unique
constraint of the `sku` column, which is compared after uppercasing). -/
def NormUnique (s : List Product) : Prop :=
  (s.map (fun p => pyUpper p.sku)).Nodup

instance : DecidablePred AllUpper := fun l =>
  inferInstanceAs (Decidable (∀ p ∈ l, pyUpper p.sku = p.sku))

instance : DecidablePred NormUnique := fun l => by
  unfold NormUnique; infer_instance

/-- The mutable attributes passed as `defaults` to `update_or_create`. -/
structure Defaults where
  name : String
  price : Dec
  description : String
  active : Bool
deriving DecidableEq, Repr

/-- `Product.objects.update_or_create(sku=..., defaults=...)`: look up the
row with exactly the given SKU; overwrite its mutable attributes if found,
otherwise create a new row.  Either way the write goes through
`Product.save`, which uppercases the SKU. -/
def update_or_create (store : List Product) (sku : String) (d : Defaults) :
    List Product :=
  if store.any (fun p => p.sku == sku) then
    store.map (fun p =>
      if p.sku == sku then
        Product.save { p with name := d.name, price := d.price,
                              description := d.description, active := d.active }
      else p)
  else
    store ++ [Product.save { sku := sku, name := d.name, price := d.price,
                             description := d.description, active := d.active }]

/-- A validated change-record as assembled by the ingestion loop
(`product_data` in `process_csv_file`). -/
structure ProductData where
  sku : String
  name : String
  price : Dec
  description : String
  active : Bool
deriving DecidableEq, Repr

/-- Apply one change-record to the store via `update_or_create`. -/
def upsert (store : List Product) (pd : ProductData) : List Product :=
  update_or_create store pd.sku
    { name := pd.name, price := pd.price,
      description := pd.description, active := pd.active }

/-- A record matching `pd` (same SKU and same mutable attributes) is
present in the store. -/
def storeHas (s : List Product) (pd : ProductData) : Bool :=
  s.any (fun p =>
    p.sku == pd.sku && p.name == pd.name && p.price == pd.price &&
    p.description == pd.description && p.active == pd.active)

/-! ## Batch Upsert Engine (`process_batch`)

The environment decides which exceptions occur: `atomicOk j` says whether
the upsert of the `j`-th record inside the atomic attempt raises (a raise
is caught by the inner `except` and the record is skipped),
`atomicExitRaises` says whether the `with transaction.atomic()` block
raises when it exits (in which case every write of the atomic attempt is
rolled back and the outer `except` runs the per-record fallback), and
`fallbackOk j` says whether the `j`-th individual upsert of the fallback
succeeds. -/

structure BatchCallEnv where
  atomicExitRaises : Bool
  atomicOk : Nat → Bool
  fallbackOk : Nat → Bool

/-- One pass over the batch: upsert each record whose application does not
raise, counting the successes on top of `count`. -/
def applyEach (ok : Nat → Bool) : List ProductData → Nat → List Product →
    Nat → List Product × Nat
  | [], _, store, count => (store, count)
  | pd :: rest, j, store, count =>
    if ok j then applyEach ok rest (j + 1) (upsert store pd) (count + 1)
    else applyEach ok rest (j + 1) store count

/-- `process_batch` (`views.py` lines 282-322).  The atomic attempt runs
first, accumulating `success_count`; if the atomic block raises at exit,
its writes are rolled back (the store reverts to `store`) but
`success_count` is NOT reset, and the fallback pass adds to it. -/
def process_batch (cenv : BatchCallEnv) (store : List Product)
    (batch : List ProductData) : List Product × Nat :=
  let a := applyEach cenv.atomicOk batch 0 store 0
  if cenv.atomicExitRaises then
    applyEach cenv.fallbackOk batch 0 store a.2
  else a

/-! ## Row Validator

`process_csv_file` extracts the fields of each `csv.DictReader` row
through a lowercased header map, trims them, rejects empty required
fields, parses the price as a decimal and rejects negative values. -/

/-- A CSV row as produced by `csv.DictReader`: header name to cell text. -/
def Row := List (String × String)

/-- Dictionary lookup with default (`dict.get(k, d)`); the dictionaries of
the source are embedded as association lists where the first match wins. -/
def dictGetD (m : List (String × String)) (k d : String) : String :=
  match m.find? (fun kv => kv.1 == k) with
  | some kv => kv.2
  | none => d

/-- `{field.lower(): field for field in csv_reader.fieldnames}`: a later
duplicate header overwrites an earlier one, hence the reversal. -/
def buildFieldnames (fields : List String) : List (String × String) :=
  (fields.map (fun f => (pyLower f, f))).reverse

/-- Value of digits in base 10. -/
def digitsToNat (ds : List Char) : Nat :=
  ds.foldl (fun n c => 10 * n + (c.toNat - 48)) 0

/-- Split a leading sign off a character list. -/
def splitSign : List Char → Int × List Char
  | [] => (1, [])
  | c :: rest =>
    if c = '-' then (-1, rest)
    else if c = '+' then (1, rest)
    else (1, c :: rest)

/-- `Decimal(price_str)` on the plain literal forms `[+|-]digits[.digits]`
(exponent and special forms are rejected by this embedding; the claims
only exercise plain literals).  Returns `none` when the conversion raises
`InvalidOperation`.  The value denoted is `m / 10 ^ e`. -/
def parseDecimal (s : String) : Option Dec :=
  let (sg, ds) := splitSign s.toList
  let ip := ds.takeWhile (fun c => c.isDigit)
  let rest := ds.dropWhile (fun c => c.isDigit)
  match rest with
  | [] => if ip = [] then none else some ⟨sg * (digitsToNat ip : Int), 0⟩
  | c :: fp =>
    if c = '.' ∧ fp.all (fun x => x.isDigit) ∧ (ip ≠ [] ∨ fp ≠ []) then
      some ⟨sg * ((digitsToNat ip : Int) * (10 : Int) ^ fp.length +
        (digitsToNat fp : Int)), fp.length⟩
    else none

/-- Model stand-in for the text of a Python `InvalidOperation`. -/
def decimalErrorText : String := "InvalidOperation"

/-- Outcome of validating one row. -/
inductive RowResult where
  | ok (pd : ProductData)
  | missing
  | badPrice (price_str msg : String)
deriving DecidableEq, Repr

/-- The per-row validation of `process_csv_file` (lines 172-213): extract
`sku`/`name`/`price`/`description` case-insensitively, trim, reject empty
required fields, parse and sign-check the price, and uppercase the SKU of
the resulting change-record. -/
def validateRow (fieldnames : List (String × String)) (row : Row) : RowResult :=
  let sku := pyStrip (dictGetD row (dictGetD fieldnames "sku" "") "")
  let name := pyStrip (dictGetD row (dictGetD fieldnames "name" "") "")
  let price_str := pyStrip (dictGetD row (dictGetD fieldnames "price" "") "")
  let description := pyStrip (dictGetD row (dictGetD fieldnames "description" "") "")
  if sku == "" || name == "" || price_str == "" then .missing
  else
    match parseDecimal price_str with
    | none => .badPrice price_str decimalErrorText
    | some price =>
      if price.m < 0 then .badPrice price_str "Price cannot be negative"
      else .ok { sku := pyUpper sku, name := name, price := price,
                 description := description, active := true }

/-- An apostrophe, for reproducing the quoting of the source messages. -/
def squote : String := String.singleton (Char.ofNat 39)

def missingMsg (row_num : Nat) : String :=
  "Row " ++ toString row_num ++ ": Missing required fields (sku, name, price)"

def badPriceMsg (row_num : Nat) (price_str msg : String) : String :=
  "Row " ++ toString row_num ++ ": Invalid price " ++ squote ++ price_str ++
    squote ++ ": " ++ msg

def unexpectedMsg (row_num : Nat) (msg : String) : String :=
  "Row " ++ toString row_num ++ ": Unexpected error: " ++ msg

/-! ## Ingestion Coordinator (`process_csv_file`)

The loop environment: `rowException i` is the unexpected exception (if
any) raised while handling the `i`-th data row (caught by the per-row
`except` at line 230), `finalSaveRaises` says whether the final
`session.save()` raises (the only save outside the per-row `try`), and
`fatalMsg` is the text of that exception, recorded by the top-level
failure handler. -/

structure RowEnv where
  rowException : Nat → Option String
  finalSaveRaises : Bool
  fatalMsg : String

/-- The in-memory state of the processing loop, together with the current
persisted `ImportSession` row (`db`) and the list of persisted checkpoint
snapshots. -/
structure LoopSt where
  processed : Nat
  success : Nat
  error : Nat
  errors : List String
  batch : List ProductData
  store : List Product
  db : SessionRec
  checkpoints : List SessionRec
  batchCalls : Nat

def batch_size : Nat := 1000

/-- `if processed_count % 100 == 0: session.save()` — persist the current
counters.  The status, total and error log fields are not touched. -/
def checkpointIfDue (st : LoopSt) : LoopSt :=
  if st.processed % 100 == 0 then
    let db := { st.db with processed_rows := st.processed,
                           success_count := st.success,
                           error_count := st.error }
    { st with db := db, checkpoints := st.checkpoints ++ [db] }
  else st

/-- The body of the per-row `try` (lines 168-238) without the final
checkpoint: count the row as processed, then either record an error or
append the validated record to the batch, flushing the batch through
`process_batch` when it reaches `batch_size`. -/
def consumeRow (benv : Nat → BatchCallEnv) (env : RowEnv)
    (fieldnames : List (String × String)) (i : Nat) (row : Row)
    (st : LoopSt) : LoopSt :=
  let st1 := { st with processed := st.processed + 1 }
  match env.rowException i with
  | some m =>
    { st1 with error := st1.error + 1,
               errors := st1.errors ++ [unexpectedMsg (i + 2) m] }
  | none =>
    match validateRow fieldnames row with
    | .missing =>
      { st1 with error := st1.error + 1,
                 errors := st1.errors ++ [missingMsg (i + 2)] }
    | .badPrice ps m =>
      { st1 with error := st1.error + 1,
                 errors := st1.errors ++ [badPriceMsg (i + 2) ps m] }
    | .ok pd =>
      let st2 := { st1 with batch := st1.batch ++ [pd] }
      if batch_size ≤ st2.batch.length then
        let r := process_batch (benv st2.batchCalls) st2.store st2.batch
        { st2 with store := r.1, success := st2.success + r.2,
                   batch := [], batchCalls := st2.batchCalls + 1 }
      else st2

/-- One loop iteration: handle the row, then checkpoint when due. -/
def stepRow (benv : Nat → BatchCallEnv) (env : RowEnv)
    (fieldnames : List (String × String)) (i : Nat) (row : Row)
    (st : LoopSt) : LoopSt :=
  checkpointIfDue (consumeRow benv env fieldnames i row st)

/-- The `for row_num, row in enumerate(csv_reader, start=2)` loop. -/
def runLoop (benv : Nat → BatchCallEnv) (env : RowEnv)
    (fieldnames : List (String × String)) :
    Nat → List Row → LoopSt → LoopSt
  | _, [], st => st
  | i, row :: rest, st =>
    runLoop benv env fieldnames (i + 1) rest (stepRow benv env fieldnames i row st)

/-- `session.error_log` as written at finalization (lines 251-255): the
first 100 errors joined by newlines, plus an overflow marker naming the
number of omitted errors; left untouched when there are no errors. -/
def finalErrorLog (errors : List String) (current : Option String) :
    Option String :=
  if errors.isEmpty then current
  else
    let log := String.intercalate "\n" (errors.take 100)
    if 100 < errors.length then
      some (log ++ "\n... and " ++ toString (errors.length - 100) ++ " more errors")
    else some log

/-- The `ImportSession` row as created by `upload_csv`. -/
def initialSession (t : Nat) : SessionRec :=
  { total_rows := t, processed_rows := 0, success_count := 0,
    error_count := 0, status := "pending", error_log := none }

/-- The whole result of one ingestion run: the final persisted session
row, the checkpoint snapshots, the full trace of persisted session writes
(initial `processing` save, checkpoints, final save), the in-memory error
list and the final product store. -/
structure RunResult where
  final : SessionRec
  checkpoints : List SessionRec
  trace : List SessionRec
  errors : List String
  store : List Product
deriving Repr

/-- The session row after the `session.status = 'processing'` save that
opens the run (line 153-154). -/
def runStart (t : Nat) : SessionRec :=
  { initialSession t with status := "processing" }

/-- Loop state at entry of the row loop. -/
def initSt (t : Nat) (store0 : List Product) : LoopSt :=
  { processed := 0, success := 0, error := 0, errors := [], batch := [],
    store := store0, db := runStart t, checkpoints := [], batchCalls := 0 }

/-- `if batch: process_batch(batch)` after the loop (lines 241-243). -/
def flushRemaining (benv : Nat → BatchCallEnv) (st : LoopSt) : LoopSt :=
  if st.batch.isEmpty then st
  else
    let r := process_batch (benv st.batchCalls) st.store st.batch
    { st with store := r.1, success := st.success + r.2,
              batch := [], batchCalls := st.batchCalls + 1 }

/-- Loop state after the row loop and the final partial-batch flush. -/
def loopFinalSt (benv : Nat → BatchCallEnv) (env : RowEnv) (t : Nat)
    (headers : List String) (rows : List Row) (store0 : List Product) :
    LoopSt :=
  flushRemaining benv
    (runLoop benv env (buildFieldnames headers) 0 rows (initSt t store0))

/-- `process_csv_file` (lines 149-279).  `t` is the `total_rows` computed
by `upload_csv`; `headers` are `csv_reader.fieldnames`; `rows` the data
rows.  On the normal path finalization forces `processed_rows` to
`total_rows`, persists the final counters with status `completed`, and
writes the capped error log.  When the final save raises, the top-level
handler re-fetches the persisted row, overwrites only `status` and
`error_log`, and saves. -/
def process_csv_file (benv : Nat → BatchCallEnv) (env : RowEnv) (t : Nat)
    (headers : List String) (rows : List Row) (store0 : List Product) :
    RunResult :=
  let st := loopFinalSt benv env t headers rows store0
  if env.finalSaveRaises then
    let failedRec :=
      { st.db with status := "failed",
                   error_log := some ("Processing failed: " ++ env.fatalMsg) }
    { final := failedRec, checkpoints := st.checkpoints,
      trace := runStart t :: (st.checkpoints ++ [failedRec]),
      errors := st.errors, store := st.store }
  else
    let completedRec : SessionRec :=
      { st.db with processed_rows := st.db.total_rows,
                   success_count := st.success, error_count := st.error,
                   status := "completed",
                   error_log := finalErrorLog st.errors st.db.error_log }
    { final := completedRec, checkpoints := st.checkpoints,
      trace := runStart t :: (st.checkpoints ++ [completedRec]),
      errors := st.errors, store := st.store }

/-- Whether the handling of row `i` takes one of the three error paths. -/
def rowFails (env : RowEnv) (fieldnames : List (String × String)) (i : Nat)
    (row : Row) : Bool :=
  match env.rowException i with
  | some _ => true
  | none =>
    match validateRow fieldnames row with
    | .ok _ => false
    | _ => true

/-- Number of rows of the stream that take an error path. -/
def countFailing (env : RowEnv) (fieldnames : List (String × String)) :
    Nat → List Row → Nat
  | _, [] => 0
  | i, row :: rest =>
    (if rowFails env fieldnames i row then 1 else 0) +
      countFailing env fieldnames (i + 1) rest

/-! ## Progress boundary (`get_progress`) -/

structure ProgressResponse where
  status : String
  total_rows : Nat
  processed_rows : Nat
  success_count : Nat
  error_count : Nat
  progress_percentage : Rat
  error_log : Option String
deriving DecidableEq, Repr

-- Python `round(x, 2)` is banker's rounding; `round` here rounds exact
-- halves up.  No claim below depends on an exact-half percentage.
def progress_percentage (s : SessionRec) : Rat :=
  if s.total_rows == 0 then 0
  else (round (((s.processed_rows : Rat) / (s.total_rows : Rat)) * 100 * 100) : Int) / 100

def get_progress (s : SessionRec) : ProgressResponse :=
  { status := s.status, total_rows := s.total_rows,
    processed_rows := s.processed_rows, success_count := s.success_count,
    error_count := s.error_count,
    progress_percentage := progress_percentage s, error_log := s.error_log }

/-! ## Submission boundary (`upload_csv`) -/

inductive UploadResult where
  | error (msg : String) (status : Nat)
  | ok (session : SessionRec) (total_rows : Nat)
deriving DecidableEq, Repr

def required_columns : List String := ["sku", "name", "price"]

/-- `upload_csv` (lines 65-128) up to the point where the background
thread is started: reject a non-.csv name, an oversize file, or a header
missing a required column (case-insensitively), each before the
`ImportSession` row is created; otherwise create the session with
`total_rows` = line count minus header. -/
def upload_csv (filename : String) (size : Nat) (fieldnames : List String)
    (lineCount : Nat) : UploadResult :=
  if !(pyEndsWith filename ".csv") then
    .error "Please upload a CSV file" 400
  else if 100 * 1024 * 1024 < size then
    .error "File size too large. Maximum 100MB allowed." 400
  else if !(required_columns.all (fun c =>
      (fieldnames.map (fun f => pyLower f)).contains (pyLower c))) then
    .error ("CSV must contain columns: " ++ String.intercalate ", " required_columns) 400
  else
    .ok (initialSession (lineCount - 1)) (lineCount - 1)

/-! ## Event Dispatcher (`send_webhook_notification`, `test_webhook`) -/

/-- Outcome of one HTTP delivery attempt, decided by the environment. -/
inductive DeliveryOutcome where
  | response (status_code : Nat)
  | requestError (msg : String)
deriving DecidableEq, Repr

/-- The headers both delivery paths attach (lines 785-793, 864-870). -/
def webhookHeaders (w : Webhook) : List (String × String) :=
  [("Content-Type", "application/json"),
   ("User-Agent", "ProductImporter-Webhook/1.0")] ++
  (match w.secret_key with
   | some s => [("X-Webhook-Secret", s)]
   | none => [])

/-- The request a delivery attempt issues. -/
structure WebhookRequest where
  url : String
  event : String
  timestamp : Rat
  headers : List (String × String)
  timeout : Nat
deriving DecidableEq, Repr

/-- `send_webhook_notification` (lines 855-881): build the payload and
headers, post once with a 10s timeout; on a request error print a log
line.  Nothing is written back to the `Webhook` row and nothing is
raised.  Returns the (unchanged) row, the attempted request, and the
printed line if any. -/
def send_webhook_notification (outcome : DeliveryOutcome) (now : Rat)
    (w : Webhook) (event_type : String) :
    Webhook × WebhookRequest × Option String :=
  let req : WebhookRequest :=
    { url := w.url, event := event_type, timestamp := now,
      headers := webhookHeaders w, timeout := 10 }
  match outcome with
  | .response _ => (w, req, none)
  | .requestError m =>
    (w, req, some ("Webhook notification failed for " ++ w.name ++ ": " ++ m))

/-- The JSON body `test_webhook` returns to its caller. -/
structure TestViewResponse where
  success : Bool
  status_code : Option Nat
  response_time : Rat
  error : Option String
deriving DecidableEq, Repr

/-- Environment of one synchronous test delivery: the HTTP outcome, the
measured latency and the current time. -/
structure TestEnv where
  outcome : DeliveryOutcome
  elapsed : Rat
  now : Nat

def round3 (q : Rat) : Rat := (round (q * 1000) : Int) / 1000

/-- `test_webhook` (lines 750-837): perform one delivery attempt; write
the outcome into the `last_test_*` diagnostics of the row (`failed` on a
request error, `failed` for a status of 400 or above, `success`
otherwise) and return the outcome to the caller. -/
def test_webhook (env : TestEnv) (w : Webhook) : Webhook × TestViewResponse :=
  match env.outcome with
  | .response code =>
    let w2 := { w with
      last_test_at := some env.now,
      last_test_status := some (if code < 400 then "success" else "failed"),
      last_test_response_time := some env.elapsed,
      last_test_response_code := some code }
    (w2, { success := true, status_code := some code,
           response_time := round3 env.elapsed, error := none })
  | .requestError m =>
    let w2 := { w with
      last_test_at := some env.now,
      last_test_status := some "failed",
      last_test_response_time := some env.elapsed,
      last_test_response_code := none }
    (w2, { success := false, status_code := none,
           response_time := round3 env.elapsed,
           error := some ("Request failed: " ++ m) })

/-! ## Helper lemmas: batch engine -/

lemma applyEach_count_le (ok : Nat → Bool) :
    ∀ (batch : List ProductData) (j : Nat) (store : List Product) (c : Nat),
      (applyEach ok batch j store c).2 ≤ c + batch.length := by
  intro batch
  induction batch with
  | nil => intro j store c; simp [applyEach]
  | cons pd rest ih =>
    intro j store c
    unfold applyEach
    by_cases h : ok j
    · simp only [h, if_true]
      calc (applyEach ok rest (j + 1) (upsert store pd) (c + 1)).2
          ≤ c + 1 + rest.length := ih _ _ _
        _ = c + (pd :: rest).length := by simp only [List.length_cons]; omega
    · simp only [h, if_false]
      calc (applyEach ok rest (j + 1) store c).2 ≤ c + rest.length := ih _ _ _
        _ ≤ c + (pd :: rest).length := by simp only [List.length_cons]; omega

lemma applyEach_count_all (ok : Nat → Bool) (hok : ∀ j, ok j = true) :
    ∀ (batch : List ProductData) (j : Nat) (store : List Product) (c : Nat),
      (applyEach ok batch j store c).2 = c + batch.length := by
  intro batch
  induction batch with
  | nil => intro j store c; simp [applyEach]
  | cons pd rest ih =>
    intro j store c
    unfold applyEach
    simp only [hok j, if_true, ih, List.length_cons]
    omega

lemma process_batch_count_le (cenv : BatchCallEnv)
    (h : cenv.atomicExitRaises = false) (store : List Product)
    (batch : List ProductData) :
    (process_batch cenv store batch).2 ≤ batch.length := by
  unfold process_batch
  simp only [h, if_false]
  simpa using applyEach_count_le cenv.atomicOk batch 0 store 0

lemma process_batch_count_all (cenv : BatchCallEnv)
    (h : cenv.atomicExitRaises = false) (hok : ∀ j, cenv.atomicOk j = true)
    (store : List Product) (batch : List ProductData) :
    (process_batch cenv store batch).2 = batch.length := by
  unfold process_batch
  simp only [h, if_false]
  simpa using applyEach_count_all cenv.atomicOk hok batch 0 store 0

/-! ## Helper lemmas: loop bookkeeping -/

lemma checkpointIfDue_processed (st : LoopSt) :
    (checkpointIfDue st).processed = st.processed := by
  unfold checkpointIfDue; split <;> rfl

lemma checkpointIfDue_success (st : LoopSt) :
    (checkpointIfDue st).success = st.success := by
  unfold checkpointIfDue; split <;> rfl

lemma checkpointIfDue_error (st : LoopSt) :
    (checkpointIfDue st).error = st.error := by
  unfold checkpointIfDue; split <;> rfl

lemma checkpointIfDue_errors (st : LoopSt) :
    (checkpointIfDue st).errors = st.errors := by
  unfold checkpointIfDue; split <;> rfl

lemma checkpointIfDue_batch (st : LoopSt) :
    (checkpointIfDue st).batch = st.batch := by
  unfold checkpointIfDue; split <;> rfl

lemma checkpointIfDue_db_status (st : LoopSt) :
    (checkpointIfDue st).db.status = st.db.status := by
  unfold checkpointIfDue; split <;> rfl

lemma checkpointIfDue_db_total (st : LoopSt) :
    (checkpointIfDue st).db.total_rows = st.db.total_rows := by
  unfold checkpointIfDue; split <;> rfl

lemma checkpointIfDue_db_error_log (st : LoopSt) :
    (checkpointIfDue st).db.error_log = st.db.error_log := by
  unfold checkpointIfDue; split <;> rfl

section ConsumeRow

variable (benv : Nat → BatchCallEnv) (env : RowEnv)
variable (fn : List (String × String)) (i : Nat) (row : Row) (st : LoopSt)

lemma consumeRow_db : (consumeRow benv env fn i row st).db = st.db := by
  unfold consumeRow
  cases env.rowException i with
  | some m => rfl
  | none =>
    cases validateRow fn row with
    | ok pd => dsimp only; split <;> rfl
    | missing => rfl
    | badPrice ps m => rfl

lemma consumeRow_checkpoints :
    (consumeRow benv env fn i row st).checkpoints = st.checkpoints := by
  unfold consumeRow
  cases env.rowException i with
  | some m => rfl
  | none =>
    cases validateRow fn row with
    | ok pd => dsimp only; split <;> rfl
    | missing => rfl
    | badPrice ps m => rfl

lemma consumeRow_processed :
    (consumeRow benv env fn i row st).processed = st.processed + 1 := by
  unfold consumeRow
  cases env.rowException i with
  | some m => rfl
  | none =>
    cases validateRow fn row with
    | ok pd => dsimp only; split <;> rfl
    | missing => rfl
    | badPrice ps m => rfl

lemma consumeRow_error :
    (consumeRow benv env fn i row st).error =
      st.error + (if rowFails env fn i row then 1 else 0) := by
  unfold consumeRow rowFails
  cases env.rowException i with
  | some m => rfl
  | none =>
    cases validateRow fn row with
    | ok pd =>
      dsimp only; split <;> simp
    | missing => rfl
    | badPrice ps m => rfl

lemma consumeRow_errors_length :
    (consumeRow benv env fn i row st).errors.length =
      st.errors.length + (if rowFails env fn i row then 1 else 0) := by
  unfold consumeRow rowFails
  cases env.rowException i with
  | some m => simp
  | none =>
    cases validateRow fn row with
    | ok pd =>
      dsimp only; split <;> simp
    | missing => simp
    | badPrice ps m => simp

end ConsumeRow

section LoopInvariants

variable (benv : Nat → BatchCallEnv) (env : RowEnv)
variable (fn : List (String × String))

/-- Generic invariant-preservation combinator for the loop. -/
lemma runLoop_pres (P : LoopSt → Prop)
    (hstep : ∀ i row st, P st → P (stepRow benv env fn i row st)) :
    ∀ (rows : List Row) (i : Nat) (st : LoopSt),
      P st → P (runLoop benv env fn i rows st) := by
  intro rows
  induction rows with
  | nil => intro i st h; exact h
  | cons r rest ih => intro i st h; exact ih _ _ (hstep _ _ _ h)

lemma stepRow_processed (i : Nat) (row : Row) (st : LoopSt) :
    (stepRow benv env fn i row st).processed = st.processed + 1 := by
  unfold stepRow
  rw [checkpointIfDue_processed, consumeRow_processed]

lemma stepRow_error (i : Nat) (row : Row) (st : LoopSt) :
    (stepRow benv env fn i row st).error =
      st.error + (if rowFails env fn i row then 1 else 0) := by
  unfold stepRow
  rw [checkpointIfDue_error, consumeRow_error]

lemma stepRow_errors_length (i : Nat) (row : Row) (st : LoopSt) :
    (stepRow benv env fn i row st).errors.length =
      st.errors.length + (if rowFails env fn i row then 1 else 0) := by
  unfold stepRow
  rw [checkpointIfDue_errors, consumeRow_errors_length]

lemma runLoop_processed :
    ∀ (rows : List Row) (i : Nat) (st : LoopSt),
      (runLoop benv env fn i rows st).processed = st.processed + rows.length := by
  intro rows
  induction rows with
  | nil => intro i st; simp [runLoop]
  | cons r rest ih =>
    intro i st
    show (runLoop benv env fn (i + 1) rest (stepRow benv env fn i r st)).processed = _
    rw [ih, stepRow_processed]
    simp only [List.length_cons]
    omega

lemma countFailing_cons (i : Nat) (r : Row) (rest : List Row) :
    countFailing env fn i (r :: rest) =
      (if rowFails env fn i r then 1 else 0) + countFailing env fn (i + 1) rest := rfl

lemma runLoop_error :
    ∀ (rows : List Row) (i : Nat) (st : LoopSt),
      (runLoop benv env fn i rows st).error =
        st.error + countFailing env fn i rows := by
  intro rows
  induction rows with
  | nil => intro i st; simp [runLoop, countFailing]
  | cons r rest ih =>
    intro i st
    show (runLoop benv env fn (i + 1) rest (stepRow benv env fn i r st)).error = _
    rw [ih, stepRow_error, countFailing_cons]
    omega

lemma runLoop_errors_length :
    ∀ (rows : List Row) (i : Nat) (st : LoopSt),
      (runLoop benv env fn i rows st).errors.length =
        st.errors.length + countFailing env fn i rows := by
  intro rows
  induction rows with
  | nil => intro i st; simp [runLoop, countFailing]
  | cons r rest ih =>
    intro i st
    show (runLoop benv env fn (i + 1) rest (stepRow benv env fn i r st)).errors.length = _
    rw [ih, stepRow_errors_length, countFailing_cons]
    omega

/-- Fields of the persisted session row that the loop never touches. -/
def DbFrame (t : Nat) (st : LoopSt) : Prop :=
  st.db.status = "processing" ∧ st.db.total_rows = t ∧ st.db.error_log = none ∧
    ∀ s ∈ st.checkpoints, s.status = "processing"

lemma stepRow_dbFrame (t : Nat) (i : Nat) (row : Row) (st : LoopSt)
    (h : DbFrame t st) : DbFrame t (stepRow benv env fn i row st) := by
  obtain ⟨h1, h2, h3, h4⟩ := h
  unfold stepRow
  set x := consumeRow benv env fn i row st with hx
  have hdb : x.db = st.db := consumeRow_db benv env fn i row st
  have hck : x.checkpoints = st.checkpoints :=
    consumeRow_checkpoints benv env fn i row st
  unfold checkpointIfDue
  split
  · refine ⟨by simp [hdb, h1], by simp [hdb, h2], by simp [hdb, h3], ?_⟩
    intro s hs
    simp only [List.mem_append, List.mem_singleton] at hs
    rcases hs with hs | hs
    · exact h4 s (hck ▸ hs)
    · subst hs; simp [hdb, h1]
  · exact ⟨hdb ▸ h1, hdb ▸ h2, hdb ▸ h3, fun s hs => h4 s (hck ▸ hs)⟩

/-- The persisted row is always the last checkpoint written (or the
initial `processing` save when none was). -/
def DbLast (db0 : SessionRec) (st : LoopSt) : Prop :=
  st.db = st.checkpoints.getLastD db0

lemma stepRow_dbLast (db0 : SessionRec) (i : Nat) (row : Row) (st : LoopSt)
    (h : DbLast db0 st) : DbLast db0 (stepRow benv env fn i row st) := by
  unfold stepRow
  set x := consumeRow benv env fn i row st with hx
  have hdb : x.db = st.db := consumeRow_db benv env fn i row st
  have hck : x.checkpoints = st.checkpoints :=
    consumeRow_checkpoints benv env fn i row st
  unfold DbLast checkpointIfDue
  split
  · simp [List.getLastD_concat]
  · unfold DbLast at h
    rw [hdb, hck, h]

/-- Counter balance: rows in the pending batch are counted in
`processed` but in neither `success` nor `error`; when no whole-batch
atomic attempt raises, the flushed success counts never exceed the batch
sizes, so the sum stays below `processed`. -/
def SumLe (st : LoopSt) : Prop :=
  st.success + st.error + st.batch.length ≤ st.processed

/-- All persisted checkpoints satisfy the (weakened) counter relation. -/
def CkLe (st : LoopSt) : Prop :=
  ∀ s ∈ st.checkpoints, s.success_count + s.error_count ≤ s.processed_rows

lemma consumeRow_sumLe (h1 : ∀ k, (benv k).atomicExitRaises = false)
    (i : Nat) (row : Row) (st : LoopSt) (h : SumLe st) :
    SumLe (consumeRow benv env fn i row st) := by
  unfold SumLe at *
  unfold consumeRow
  cases env.rowException i with
  | some m => simp only; omega
  | none =>
    cases validateRow fn row with
    | missing => simp only; omega
    | badPrice ps m => simp only; omega
    | ok pd =>
      dsimp only
      split
      · have hle := process_batch_count_le (benv st.batchCalls)
          (h1 st.batchCalls) st.store (st.batch ++ [pd])
        simp only [List.length_append, List.length_cons, List.length_nil,
          List.length] at *
        omega
      · simp only [List.length_append, List.length_cons, List.length_nil] at *
        omega

lemma stepRow_le (h1 : ∀ k, (benv k).atomicExitRaises = false)
    (i : Nat) (row : Row) (st : LoopSt) (h : SumLe st ∧ CkLe st) :
    SumLe (stepRow benv env fn i row st) ∧ CkLe (stepRow benv env fn i row st) := by
  obtain ⟨hs, hc⟩ := h
  have hx : SumLe (consumeRow benv env fn i row st) :=
    consumeRow_sumLe benv env fn h1 i row st hs
  have hck : (consumeRow benv env fn i row st).checkpoints = st.checkpoints :=
    consumeRow_checkpoints benv env fn i row st
  unfold stepRow
  set x := consumeRow benv env fn i row st
  constructor
  · unfold SumLe at *
    rw [checkpointIfDue_success, checkpointIfDue_error, checkpointIfDue_batch,
      checkpointIfDue_processed]
    exact hx
  · unfold CkLe
    unfold checkpointIfDue
    split
    · intro s hs'
      simp only [List.mem_append, List.mem_singleton] at hs'
      rcases hs' with hs' | hs'
      · exact hc s (hck ▸ hs')
      · subst hs'
        unfold SumLe at hx
        simp only
        omega
    · intro s hs'; exact hc s (hck ▸ hs')

/-- Exact counter balance when additionally every upsert of every atomic
attempt succeeds: every flushed batch contributes exactly its size. -/
def SumEq (st : LoopSt) : Prop :=
  st.success + st.error + st.batch.length = st.processed

lemma consumeRow_sumEq (h1 : ∀ k, (benv k).atomicExitRaises = false)
    (h2 : ∀ k j, (benv k).atomicOk j = true)
    (i : Nat) (row : Row) (st : LoopSt) (h : SumEq st) :
    SumEq (consumeRow benv env fn i row st) := by
  unfold SumEq at *
  unfold consumeRow
  cases env.rowException i with
  | some m => simp only; omega
  | none =>
    cases validateRow fn row with
    | missing => simp only; omega
    | badPrice ps m => simp only; omega
    | ok pd =>
      dsimp only
      split
      · have heq := process_batch_count_all (benv st.batchCalls)
          (h1 st.batchCalls) (h2 st.batchCalls) st.store (st.batch ++ [pd])
        simp only [List.length_append, List.length_cons, List.length_nil] at *
        omega
      · simp only [List.length_append, List.length_cons, List.length_nil] at *
        omega

lemma stepRow_sumEq (h1 : ∀ k, (benv k).atomicExitRaises = false)
    (h2 : ∀ k j, (benv k).atomicOk j = true)
    (i : Nat) (row : Row) (st : LoopSt) (h : SumEq st) :
    SumEq (stepRow benv env fn i row st) := by
  have hx := consumeRow_sumEq benv env fn h1 h2 i row st h
  unfold SumEq at *
  unfold stepRow
  rw [checkpointIfDue_success, checkpointIfDue_error, checkpointIfDue_batch,
    checkpointIfDue_processed]
  exact hx

end LoopInvariants

section RunLemmas

variable (benv : Nat → BatchCallEnv) (env : RowEnv) (t : Nat)
variable (headers : List String) (rows : List Row) (store0 : List Product)

lemma flushRemaining_db (st : LoopSt) : (flushRemaining benv st).db = st.db := by
  unfold flushRemaining; split <;> rfl

lemma flushRemaining_checkpoints (st : LoopSt) :
    (flushRemaining benv st).checkpoints = st.checkpoints := by
  unfold flushRemaining; split <;> rfl

lemma flushRemaining_errors (st : LoopSt) :
    (flushRemaining benv st).errors = st.errors := by
  unfold flushRemaining; split <;> rfl

lemma flushRemaining_error (st : LoopSt) :
    (flushRemaining benv st).error = st.error := by
  unfold flushRemaining; split <;> rfl

lemma flushRemaining_processed (st : LoopSt) :
    (flushRemaining benv st).processed = st.processed := by
  unfold flushRemaining; split <;> rfl

/-- After the final flush the pending batch is accounted: under a
no-raise, all-upserts-succeed environment the counters balance exactly. -/
lemma flushRemaining_sum (st : LoopSt)
    (h1 : ∀ k, (benv k).atomicExitRaises = false)
    (h2 : ∀ k j, (benv k).atomicOk j = true) (h : SumEq st) :
    (flushRemaining benv st).success + (flushRemaining benv st).error =
      (flushRemaining benv st).processed := by
  unfold SumEq at h
  unfold flushRemaining
  split
  · next he =>
    have : st.batch.length = 0 := by
      simpa using congrArg List.length (List.isEmpty_iff.mp he)
    omega
  · have heq := process_batch_count_all (benv st.batchCalls)
      (h1 st.batchCalls) (h2 st.batchCalls) st.store st.batch
    simp only
    omega

lemma loopFinalSt_dbFrame :
    DbFrame t (loopFinalSt benv env t headers rows store0) := by
  unfold loopFinalSt
  have h0 : DbFrame t (initSt t store0) := by
    refine ⟨rfl, rfl, rfl, ?_⟩
    intro s hs
    simp [initSt] at hs
  have hl := runLoop_pres benv env (buildFieldnames headers) (DbFrame t)
    (fun i row st h => stepRow_dbFrame benv env (buildFieldnames headers) t i row st h)
    rows 0 (initSt t store0) h0
  obtain ⟨ha, hb, hc, hd⟩ := hl
  refine ⟨?_, ?_, ?_, ?_⟩
  · rw [flushRemaining_db]; exact ha
  · rw [flushRemaining_db]; exact hb
  · rw [flushRemaining_db]; exact hc
  · rw [flushRemaining_checkpoints]; exact hd

lemma loopFinalSt_dbLast :
    DbLast (runStart t) (loopFinalSt benv env t headers rows store0) := by
  unfold loopFinalSt
  have h0 : DbLast (runStart t) (initSt t store0) := by
    unfold DbLast initSt
    rfl
  have hl := runLoop_pres benv env (buildFieldnames headers) (DbLast (runStart t))
    (fun i row st h =>
      stepRow_dbLast benv env (buildFieldnames headers) (runStart t) i row st h)
    rows 0 (initSt t store0) h0
  unfold DbLast at hl ⊢
  rw [flushRemaining_db, flushRemaining_checkpoints]
  exact hl

lemma loopFinalSt_error :
    (loopFinalSt benv env t headers rows store0).error =
      countFailing env (buildFieldnames headers) 0 rows := by
  unfold loopFinalSt
  rw [flushRemaining_error]
  have := runLoop_error benv env (buildFieldnames headers) rows 0 (initSt t store0)
  simpa [initSt] using this

lemma loopFinalSt_errors_length :
    (loopFinalSt benv env t headers rows store0).errors.length =
      countFailing env (buildFieldnames headers) 0 rows := by
  unfold loopFinalSt
  rw [flushRemaining_errors]
  have := runLoop_errors_length benv env (buildFieldnames headers) rows 0 (initSt t store0)
  simpa [initSt] using this

lemma loopFinalSt_processed :
    (loopFinalSt benv env t headers rows store0).processed = rows.length := by
  unfold loopFinalSt
  rw [flushRemaining_processed]
  have := runLoop_processed benv env (buildFieldnames headers) rows 0 (initSt t store0)
  simpa [initSt] using this

lemma loopFinalSt_ckLe (h1 : ∀ k, (benv k).atomicExitRaises = false) :
    CkLe (loopFinalSt benv env t headers rows store0) := by
  unfold loopFinalSt
  have h0 : SumLe (initSt t store0) ∧ CkLe (initSt t store0) := by
    constructor
    · unfold SumLe initSt; simp
    · intro s hs; simp [initSt] at hs
  have hl := runLoop_pres benv env (buildFieldnames headers)
    (fun st => SumLe st ∧ CkLe st)
    (fun i row st h => stepRow_le benv env (buildFieldnames headers) h1 i row st h)
    rows 0 (initSt t store0) h0
  intro s hs
  rw [flushRemaining_checkpoints] at hs
  exact hl.2 s hs

lemma loopFinalSt_sum (h1 : ∀ k, (benv k).atomicExitRaises = false)
    (h2 : ∀ k j, (benv k).atomicOk j = true) :
    (loopFinalSt benv env t headers rows store0).success +
      (loopFinalSt benv env t headers rows store0).error =
      (loopFinalSt benv env t headers rows store0).processed := by
  unfold loopFinalSt
  have h0 : SumEq (initSt t store0) := by unfold SumEq initSt; simp
  have hl := runLoop_pres benv env (buildFieldnames headers) SumEq
    (fun i row st h => stepRow_sumEq benv env (buildFieldnames headers) h1 h2 i row st h)
    rows 0 (initSt t store0) h0
  exact flushRemaining_sum benv _ h1 h2 hl

end RunLemmas

/-! ## Helper lemmas: store and upsert -/

lemma upsert_allUpper (s : List Product) (pd : ProductData)
    (hs : AllUpper s) (hpd : pyUpper pd.sku = pd.sku) :
    AllUpper (upsert s pd) := by
  unfold upsert update_or_create
  split
  · intro p hp
    simp only [List.mem_map] at hp
    obtain ⟨q, hq, rfl⟩ := hp
    by_cases h : q.sku == pd.sku
    · simp only [h, if_true, Product.save]
      rw [hs q hq, hs q hq]
    · simp only [h, if_false]
      exact hs q hq
  · intro p hp
    simp only [List.mem_append, List.mem_singleton] at hp
    rcases hp with hp | hp
    · exact hs p hp
    · subst hp
      simp only [Product.save]
      rw [hpd, hpd]

lemma upsert_skus (s : List Product) (pd : ProductData)
    (hs : AllUpper s) (hpd : pyUpper pd.sku = pd.sku)
    (hmem : ∃ p ∈ s, p.sku = pd.sku) :
    (upsert s pd).map (fun p => pyUpper p.sku) =
      s.map (fun p => pyUpper p.sku) := by
  unfold upsert update_or_create
  have hany : s.any (fun p => p.sku == pd.sku) = true := by
    obtain ⟨p, hp, he⟩ := hmem
    simp only [List.any_eq_true]
    exact ⟨p, hp, by simp [he]⟩
  simp only [hany, if_true, List.map_map]
  apply List.map_congr_left
  intro q hq
  by_cases h : q.sku == pd.sku
  · simp only [Function.comp, h, if_true, Product.save]
    rw [hs q hq]
    exact hs q hq
  · have h' : (q.sku == pd.sku) = false := by simpa using h
    simp [Function.comp, h']

lemma upsert_normUnique (s : List Product) (pd : ProductData)
    (hs : AllUpper s) (hu : NormUnique s) (hpd : pyUpper pd.sku = pd.sku) :
    NormUnique (upsert s pd) := by
  by_cases hmem : ∃ p ∈ s, p.sku = pd.sku
  · unfold NormUnique
    rw [upsert_skus s pd hs hpd hmem]
    exact hu
  · unfold upsert update_or_create
    have hany : s.any (fun p => p.sku == pd.sku) = false := by
      rw [List.any_eq_false]
      intro p hp he
      exact hmem ⟨p, hp, by simpa using he⟩
    rw [hany]
    simp only [Bool.false_eq_true, if_false]
    unfold NormUnique
    rw [List.map_append]
    simp only [List.map_cons, List.map_nil, Product.save]
    rw [List.nodup_append]
    refine ⟨hu, List.nodup_singleton _, ?_⟩
    intro a ha hb
    simp only [List.mem_singleton] at hb
    subst hb
    simp only [List.mem_map] at ha
    obtain ⟨p, hp, hsk⟩ := ha
    rw [hpd, hpd] at hsk
    exact hmem ⟨p, hp, by rw [← hs p hp, hsk]⟩

lemma upsert_has (s : List Product) (pd : ProductData)
    (hs : AllUpper s) (hpd : pyUpper pd.sku = pd.sku) :
    storeHas (upsert s pd) pd = true := by
  unfold upsert update_or_create storeHas
  split
  · next hany =>
    simp only [List.any_eq_true] at hany ⊢
    obtain ⟨p, hp, he⟩ := hany
    refine ⟨Product.save { p with name := pd.name, price := pd.price,
                                  description := pd.description,
                                  active := pd.active }, ?_, ?_⟩
    · simp only [List.mem_map]
      exact ⟨p, hp, by simp [he]⟩
    · simp only [Product.save]
      have : p.sku = pd.sku := by simpa using he
      simp [this, hs p hp, hpd]
  · simp only [List.any_eq_true]
    refine ⟨_, List.mem_append_right _ (List.mem_singleton_self _), ?_⟩
    simp [Product.save, hpd]

lemma storeHas_upsert_other (s : List Product) (pd q : ProductData)
    (hne : q.sku ≠ pd.sku) (h : storeHas s pd = true) :
    storeHas (upsert s q) pd = true := by
  unfold storeHas at h ⊢
  simp only [List.any_eq_true, Bool.and_eq_true, beq_iff_eq] at h ⊢
  obtain ⟨p, hp, hmatch⟩ := h
  unfold upsert update_or_create
  split
  · refine ⟨p, ?_, hmatch⟩
    simp only [List.mem_map]
    refine ⟨p, hp, ?_⟩
    have : (p.sku == q.sku) = false := by
      simp only [beq_eq_false_iff_ne, ne_eq]
      rw [hmatch.1.1.1.1]
      exact fun he => hne he.symm
    simp [this]
  · exact ⟨p, List.mem_append_left _ hp, hmatch⟩

lemma upsert_length_of_mem (s : List Product) (pd : ProductData)
    (hmem : ∃ p ∈ s, p.sku = pd.sku) :
    (upsert s pd).length = s.length := by
  unfold upsert update_or_create
  have hany : s.any (fun p => p.sku == pd.sku) = true := by
    obtain ⟨p, hp, he⟩ := hmem
    simp only [List.any_eq_true]
    exact ⟨p, hp, by simp [he]⟩
  simp [hany]

lemma applyEach_store_allUpper (ok : Nat → Bool) :
    ∀ (batch : List ProductData) (j : Nat) (s : List Product) (c : Nat),
      AllUpper s → (∀ pd ∈ batch, pyUpper pd.sku = pd.sku) →
      AllUpper (applyEach ok batch j s c).1 := by
  intro batch
  induction batch with
  | nil => intro j s c hs _; simpa [applyEach] using hs
  | cons pd rest ih =>
    intro j s c hs hb
    unfold applyEach
    by_cases h : ok j
    · simp only [h, if_true]
      exact ih _ _ _ (upsert_allUpper s pd hs (hb pd (List.mem_cons_self _ _)))
        (fun q hq => hb q (List.mem_cons_of_mem _ hq))
    · simp only [h, if_false]
      exact ih _ _ _ hs (fun q hq => hb q (List.mem_cons_of_mem _ hq))

lemma applyEach_preserves_has (ok : Nat → Bool) (pd : ProductData) :
    ∀ (batch : List ProductData) (j : Nat) (s : List Product) (c : Nat),
      storeHas s pd = true → (∀ q ∈ batch, q.sku ≠ pd.sku) →
      storeHas (applyEach ok batch j s c).1 pd = true := by
  intro batch
  induction batch with
  | nil => intro j s c h _; simpa [applyEach] using h
  | cons q rest ih =>
    intro j s c h hb
    unfold applyEach
    by_cases hok : ok j
    · simp only [hok, if_true]
      exact ih _ _ _
        (storeHas_upsert_other s pd q (hb q (List.mem_cons_self _ _)) h)
        (fun x hx => hb x (List.mem_cons_of_mem _ hx))
    · simp only [hok, if_false]
      exact ih _ _ _ h (fun x hx => hb x (List.mem_cons_of_mem _ hx))

/-- When every individual application of a pass succeeds, every record of
a duplicate-free batch ends up present in the resulting store. -/
lemma applyEach_all_has (ok : Nat → Bool) (hok : ∀ j, ok j = true) :
    ∀ (batch : List ProductData) (j : Nat) (s : List Product) (c : Nat),
      AllUpper s → (∀ pd ∈ batch, pyUpper pd.sku = pd.sku) →
      (batch.map (fun pd => pd.sku)).Nodup →
      ∀ pd ∈ batch, storeHas (applyEach ok batch j s c).1 pd = true := by
  intro batch
  induction batch with
  | nil => intro j s c _ _ _ pd hpd; simp at hpd
  | cons q rest ih =>
    intro j s c hs hb hnd pd hpd
    unfold applyEach
    simp only [hok j, if_true]
    simp only [List.map_cons, List.nodup_cons] at hnd
    rcases List.mem_cons.mp hpd with hpd | hpd
    · subst hpd
      apply applyEach_preserves_has
      · exact upsert_has s pd hs (hb pd (List.mem_cons_self _ _))
      · intro x hx he
        exact hnd.1 (he ▸ List.mem_map_of_mem (fun r => r.sku) hx)
    · exact ih _ _ _
        (upsert_allUpper s q hs (hb q (List.mem_cons_self _ _)))
        (fun x hx => hb x (List.mem_cons_of_mem _ hx)) hnd.2 pd hpd

/-! ## Helper lemmas: error-log finalization -/

lemma finalErrorLog_nil (cur : Option String) : finalErrorLog [] cur = cur := by
  unfold finalErrorLog
  rfl

lemma finalErrorLog_big (es : List String) (cur : Option String)
    (h : 100 < es.length) :
    finalErrorLog es cur =
      some (String.intercalate "\n" (es.take 100) ++ "\n... and " ++
        toString (es.length - 100) ++ " more errors") := by
  unfold finalErrorLog
  have hne : es.isEmpty = false := by
    cases es with
    | nil => simp at h
    | cons a l => rfl
  rw [hne]
  simp only [Bool.false_eq_true, if_false]
  rw [if_pos h]

lemma finalErrorLog_small (es : List String) (cur : Option String)
    (h1 : es ≠ []) (h2 : es.length ≤ 100) :
    finalErrorLog es cur = some (String.intercalate "\n" es) := by
  unfold finalErrorLog
  have hne : es.isEmpty = false := by
    cases es with
    | nil => exact absurd rfl h1
    | cons a l => rfl
  rw [hne]
  simp only [Bool.false_eq_true, if_false]
  rw [if_neg (by omega), List.take_of_length_le h2]

/-! ## Concrete fixtures used by witnesses and counterexamples -/

/-- Environment in which no batch-level or record-level failure occurs. -/
def idealCall : BatchCallEnv :=
  { atomicExitRaises := false, atomicOk := fun _ => true, fallbackOk := fun _ => true }

def benvIdeal : Nat → BatchCallEnv := fun _ => idealCall

/-- Environment in which the atomic attempt of a batch raises at exit but
every individual fallback application succeeds. -/
def atomicFailCall : BatchCallEnv :=
  { atomicExitRaises := true, atomicOk := fun _ => true, fallbackOk := fun _ => true }

/-- Row environment with no unexpected exceptions and a final save that
succeeds. -/
def envIdeal : RowEnv :=
  { rowException := fun _ => none, finalSaveRaises := false, fatalMsg := "" }

/-- Row environment whose final `session.save()` raises. -/
def envFatal : RowEnv :=
  { rowException := fun _ => none, finalSaveRaises := true,
    fatalMsg := "database unreachable" }

def stdHeaders : List String := ["sku", "name", "price"]

/-- A well-formed data row. -/
def validRowA : Row := [("sku", "A1"), ("name", "W"), ("price", "1")]

/-- A data row with an empty required field. -/
def missingRow : Row := [("sku", ""), ("name", "W"), ("price", "1")]

def pdA : ProductData :=
  { sku := "A1", name := "W", price := ⟨1, 0⟩, description := "", active := true }

def hook0 : Webhook :=
  { name := "hook", url := "http://endpoint.invalid/h",
    event_type := "product_created", is_active := true, secret_key := none,
    last_test_at := none, last_test_status := none,
    last_test_response_time := none, last_test_response_code := none }

/-! ## Claims -/

set_option maxRecDepth 100000 in
/-- C1, counterexample: an ingestion of 100 valid rows writes a
checkpoint whose persisted counters read `processed_rows = 100`,
`success_count = 0`, `error_count = 0` (the 100 validated rows are still
sitting in the pending batch), so `success_count + error_count ==
processed_rows` fails at that checkpoint. -/
theorem C1_checkpoint_sum_cex :
    ∃ s ∈ (process_csv_file benvIdeal envIdeal 100 stdHeaders
      (List.replicate 100 validRowA) []).checkpoints,
      ¬(s.success_count + s.error_count = s.processed_rows) := by
  decide

/-- C1, amended: provided no whole-batch atomic attempt of the run fails
(hypothesis `h1` — without it even the inequality is false, because the
engine's un-reset success count after a rolled-back atomic attempt can
push `success_count` above `processed_rows`), every checkpoint satisfies
`success_count + error_count ≤ processed_rows` (validated rows pending
in the unflushed batch are counted in `processed_rows` only), and at
completion — when additionally every upsert succeeds and `total_rows`
equals the number of streamed rows — the equality
`success_count + error_count = processed_rows` holds. -/
theorem C1_checkpoint_sum_amended (benv : Nat → BatchCallEnv) (env : RowEnv)
    (t : Nat) (headers : List String) (rows : List Row) (store0 : List Product)
    (h1 : ∀ k, (benv k).atomicExitRaises = false) :
    (∀ s ∈ (process_csv_file benv env t headers rows store0).checkpoints,
      s.success_count + s.error_count ≤ s.processed_rows) ∧
    ((∀ k j, (benv k).atomicOk j = true) → env.finalSaveRaises = false →
      t = rows.length →
      (process_csv_file benv env t headers rows store0).final.success_count +
        (process_csv_file benv env t headers rows store0).final.error_count =
        (process_csv_file benv env t headers rows store0).final.processed_rows) := by
  have hck := loopFinalSt_ckLe benv env t headers rows store0 h1
  constructor
  · intro s hs
    have : (process_csv_file benv env t headers rows store0).checkpoints =
        (loopFinalSt benv env t headers rows store0).checkpoints := by
      unfold process_csv_file
      split <;> rfl
    rw [this] at hs
    exact hck s hs
  · intro h2 hfin ht
    have hsum := loopFinalSt_sum benv env t headers rows store0 h1 h2
    have hproc := loopFinalSt_processed benv env t headers rows store0
    have hframe := loopFinalSt_dbFrame benv env t headers rows store0
    unfold process_csv_file
    rw [hfin]
    simp only [Bool.false_eq_true, if_false]
    show (loopFinalSt benv env t headers rows store0).success +
      (loopFinalSt benv env t headers rows store0).error =
      (loopFinalSt benv env t headers rows store0).db.total_rows
    calc (loopFinalSt benv env t headers rows store0).success +
          (loopFinalSt benv env t headers rows store0).error
        = (loopFinalSt benv env t headers rows store0).processed := hsum
      _ = rows.length := hproc
      _ = t := ht.symm
      _ = (loopFinalSt benv env t headers rows store0).db.total_rows :=
          (hframe.2.1).symm

/-- C1, witness for the amended theorem at a concrete two-row input. -/
theorem C1_checkpoint_sum_amended_witness :
    (∀ s ∈ (process_csv_file benvIdeal envIdeal 2 stdHeaders
        [validRowA, missingRow] []).checkpoints,
      s.success_count + s.error_count ≤ s.processed_rows) ∧
    ((∀ k j, (benvIdeal k).atomicOk j = true) →
      envIdeal.finalSaveRaises = false → 2 = [validRowA, missingRow].length →
      (process_csv_file benvIdeal envIdeal 2 stdHeaders
          [validRowA, missingRow] []).final.success_count +
        (process_csv_file benvIdeal envIdeal 2 stdHeaders
          [validRowA, missingRow] []).final.error_count =
        (process_csv_file benvIdeal envIdeal 2 stdHeaders
          [validRowA, missingRow] []).final.processed_rows) :=
  C1_checkpoint_sum_amended benvIdeal envIdeal 2 stdHeaders
    [validRowA, missingRow] [] (fun _ => rfl)

/-- C2, counterexample: for the one-record batch `[pdA]` in an
environment where the whole-batch atomic attempt raises at exit (rolling
back its write) and the per-record fallback succeeds, `process_batch`
returns 2 although exactly 1 record of the batch is persisted — the
success count accumulated inside the failed atomic attempt is not reset
before the fallback adds to it. -/
theorem C2_exact_count_cex :
    (process_batch atomicFailCall [] [pdA]).2 = 2 ∧
    ([pdA].filter (fun pd =>
      storeHas (process_batch atomicFailCall [] [pdA]).1 pd)).length = 1 ∧
    (process_batch atomicFailCall [] [pdA]).2 ≠
      ([pdA].filter (fun pd =>
        storeHas (process_batch atomicFailCall [] [pdA]).1 pd)).length := by
  decide

/-- C2, amended: `process_batch` never raises; when the atomic attempt
does not fail and every upsert succeeds it returns exactly the batch size
with every record persisted; when the atomic attempt fails as a whole and
every independent fallback application succeeds, every record is
persisted but the returned count is the count accumulated in the failed
atomic attempt plus the batch size (an over-count unless the atomic
attempt counted none). -/
theorem C2_batch_count_amended (cenv : BatchCallEnv) (s : List Product)
    (batch : List ProductData)
    (h1 : ∀ pd ∈ batch, pyUpper pd.sku = pd.sku)
    (h2 : AllUpper s)
    (h3 : (batch.map (fun pd => pd.sku)).Nodup) :
    (cenv.atomicExitRaises = false → (∀ j, cenv.atomicOk j = true) →
      (process_batch cenv s batch).2 = batch.length ∧
      ∀ pd ∈ batch, storeHas (process_batch cenv s batch).1 pd = true) ∧
    (cenv.atomicExitRaises = true → (∀ j, cenv.fallbackOk j = true) →
      (process_batch cenv s batch).2 =
        (applyEach cenv.atomicOk batch 0 s 0).2 + batch.length ∧
      ∀ pd ∈ batch, storeHas (process_batch cenv s batch).1 pd = true) := by
  constructor
  · intro hr hok
    refine ⟨process_batch_count_all cenv hr hok s batch, ?_⟩
    intro pd hpd
    unfold process_batch
    rw [hr]
    simp only [Bool.false_eq_true, if_false]
    exact applyEach_all_has cenv.atomicOk hok batch 0 s 0 h2 h1 h3 pd hpd
  · intro hr hok
    unfold process_batch
    rw [hr]
    simp only [if_true]
    constructor
    · exact applyEach_count_all cenv.fallbackOk hok batch 0 s _
    · intro pd hpd
      exact applyEach_all_has cenv.fallbackOk hok batch 0 s _ h2 h1 h3 pd hpd

/-- C2, witness for the amended theorem: a concrete batch whose atomic
attempt fails as a whole. -/
theorem C2_batch_count_amended_witness :
    (process_batch atomicFailCall [] [pdA]).2 =
      (applyEach atomicFailCall.atomicOk [pdA] 0 [] 0).2 + [pdA].length ∧
    ∀ pd ∈ [pdA], storeHas (process_batch atomicFailCall [] [pdA]).1 pd = true :=
  (C2_batch_count_amended atomicFailCall [] [pdA] (by decide) (by decide)
    (by decide)).2 rfl (fun _ => rfl)

/-- C5: upserting a change-record whose identifier differs from a stored
record only in case (after the CSV path has normalized it to upper case)
overwrites the stored record's mutable attributes and never creates a
second record: the store keeps its size and keeps case-normalized
identifiers unique. -/
theorem C5_case_insensitive_upsert (s : List Product) (p : Product)
    (pd : ProductData)
    (h1 : AllUpper s) (h2 : NormUnique s) (h3 : p ∈ s)
    (h4 : pyUpper pd.sku = pd.sku) (h5 : p.sku = pd.sku) :
    ((process_batch idealCall s [pd]).1).length = s.length ∧
    storeHas (process_batch idealCall s [pd]).1 pd = true ∧
    AllUpper (process_batch idealCall s [pd]).1 ∧
    NormUnique (process_batch idealCall s [pd]).1 := by
  have hbatch : process_batch idealCall s [pd] = (upsert s pd, 1) := rfl
  rw [hbatch]
  refine ⟨?_, ?_, ?_, ?_⟩
  · exact upsert_length_of_mem s pd ⟨p, h3, h5⟩
  · exact upsert_has s pd h1 h4
  · exact upsert_allUpper s pd h1 h4
  · exact upsert_normUnique s pd h1 h2 h4

/-- C5, witness: the store holds `ABC-1` (written from the lower-case
literal `abc-1` through `Product.save`); ingesting a row for `ABC-1`
rewrites that record in place. -/
theorem C5_case_insensitive_upsert_witness :
    ((process_batch idealCall
        [{ sku := "ABC-1", name := "Old", price := ⟨500, 2⟩,
           description := "", active := true }]
        [{ sku := "ABC-1", name := "New", price := ⟨999, 2⟩,
           description := "", active := true }]).1).length = 1 ∧
    storeHas (process_batch idealCall
        [{ sku := "ABC-1", name := "Old", price := ⟨500, 2⟩,
           description := "", active := true }]
        [{ sku := "ABC-1", name := "New", price := ⟨999, 2⟩,
           description := "", active := true }]).1
      { sku := "ABC-1", name := "New", price := ⟨999, 2⟩,
        description := "", active := true } = true ∧
    AllUpper (process_batch idealCall
        [{ sku := "ABC-1", name := "Old", price := ⟨500, 2⟩,
           description := "", active := true }]
        [{ sku := "ABC-1", name := "New", price := ⟨999, 2⟩,
           description := "", active := true }]).1 ∧
    NormUnique (process_batch idealCall
        [{ sku := "ABC-1", name := "Old", price := ⟨500, 2⟩,
           description := "", active := true }]
        [{ sku := "ABC-1", name := "New", price := ⟨999, 2⟩,
           description := "", active := true }]).1 :=
  C5_case_insensitive_upsert _
    { sku := "ABC-1", name := "Old", price := ⟨500, 2⟩,
      description := "", active := true } _
    (by decide) (by decide) (by decide) (by decide) (by decide)

/-- C7: a submission whose filename does not end in `.csv`, or whose size
exceeds 100 MiB, or whose header lacks one of the required columns `sku`,
`name`, `price` under case-insensitive matching, is rejected with a
structural 400 error and no `ImportSession` is created. -/
theorem C7_structural_rejection (fn : String) (size : Nat)
    (fields : List String) (lineCount : Nat)
    (h : pyEndsWith fn ".csv" = false ∨ 100 * 1024 * 1024 < size ∨
      ∃ c ∈ required_columns,
        ((fields.map (fun f => pyLower f)).contains (pyLower c)) = false) :
    ∃ msg, upload_csv fn size fields lineCount = .error msg 400 := by
  unfold upload_csv
  by_cases h1 : pyEndsWith fn ".csv"
  · rcases h with h | h | h
    · rw [h1] at h; cases h
    · rw [h1]
      simp only [Bool.not_true, Bool.false_eq_true, if_false]
      rw [if_pos h]
      exact ⟨_, rfl⟩
    · by_cases h2 : 100 * 1024 * 1024 < size
      · rw [h1]
        simp only [Bool.not_true, Bool.false_eq_true, if_false]
        rw [if_pos h2]
        exact ⟨_, rfl⟩
      · have hall : (required_columns.all (fun c =>
            (fields.map (fun f => pyLower f)).contains (pyLower c))) = false := by
          rw [List.all_eq_false]
          obtain ⟨c, hc, hcol⟩ := h
          exact ⟨c, hc, by rw [hcol]; simp⟩
        rw [h1, hall]
        simp only [Bool.not_true, Bool.false_eq_true, if_false, Bool.not_false,
          if_true]
        rw [if_neg h2]
        exact ⟨_, rfl⟩
  · have h1' : pyEndsWith fn ".csv" = false := by
      simpa using h1
    rw [h1']
    simp only [Bool.not_false, if_true]
    exact ⟨_, rfl⟩

/-- C7, witness: a `.txt` upload is rejected before a session exists. -/
theorem C7_structural_rejection_witness :
    ∃ msg, upload_csv "products.txt" 10 ["sku", "name", "price"] 3 =
      .error msg 400 :=
  C7_structural_rejection "products.txt" 10 ["sku", "name", "price"] 3
    (Or.inl (by decide))

/-- C8, counterexample: an asynchronous delivery attempt that fails with
a request error leaves every diagnostics field of the subscription
untouched (`none` stays `none`): the failure outcome is NOT written back
into the subscription's delivery diagnostics. -/
theorem C8_async_no_diagnostics_cex :
    (send_webhook_notification (.requestError "timeout") 0 hook0
        "product_created").1 = hook0 ∧
    (send_webhook_notification (.requestError "timeout") 0 hook0
        "product_created").1.last_test_at = none ∧
    (send_webhook_notification (.requestError "timeout") 0 hook0
        "product_created").1.last_test_status = none ∧
    (send_webhook_notification (.requestError "timeout") 0 hook0
        "product_created").1.last_test_response_time = none ∧
    (send_webhook_notification (.requestError "timeout") 0 hook0
        "product_created").1.last_test_response_code = none := by
  refine ⟨rfl, rfl, rfl, rfl, rfl⟩

/-- C8, amended: an asynchronous delivery failure is swallowed — it is
never retried (exactly one attempt is made) and never surfaced to the
publisher — and only a console log line records it; the subscription row,
including all its delivery diagnostics, is returned unchanged. -/
theorem C8_async_best_effort_amended (outcome : DeliveryOutcome) (now : Rat)
    (w : Webhook) (event_type : String) :
    (send_webhook_notification outcome now w event_type).1 = w ∧
    (send_webhook_notification outcome now w event_type).2.1.url = w.url ∧
    (send_webhook_notification outcome now w event_type).2.1.timeout = 10 ∧
    (∀ m, outcome = .requestError m →
      (send_webhook_notification outcome now w event_type).2.2 =
        some ("Webhook notification failed for " ++ w.name ++ ": " ++ m)) ∧
    (∀ c, outcome = .response c →
      (send_webhook_notification outcome now w event_type).2.2 = none) := by
  cases outcome with
  | response c =>
    refine ⟨rfl, rfl, rfl, ?_, ?_⟩
    · intro m hm; cases hm
    · intro c2 hc; rfl
  | requestError m =>
    refine ⟨rfl, rfl, rfl, ?_, ?_⟩
    · intro m2 hm
      cases hm
      rfl
    · intro c hc; cases hc

/-- C8, witness: a concrete failing delivery leaves the row unchanged and
prints the log line. -/
theorem C8_async_best_effort_amended_witness :
    (send_webhook_notification (.requestError "refused") 0 hook0
        "product_updated").1 = hook0 ∧
    (send_webhook_notification (.requestError "refused") 0 hook0
        "product_updated").2.2 =
      some ("Webhook notification failed for " ++ hook0.name ++ ": " ++
        "refused") :=
  ⟨(C8_async_best_effort_amended (.requestError "refused") 0 hook0
      "product_updated").1,
   (C8_async_best_effort_amended (.requestError "refused") 0 hook0
      "product_updated").2.2.2.1 "refused" rfl⟩

/-- C9, counterexample: a test delivery that receives status 301 — a
non-2xx response — records `last_test_status = "success"` (the source
treats every status below 400 as success), refuting the claim that
`failed` is recorded exactly on request errors and non-2xx responses. -/
theorem C9_non2xx_success_cex :
    (test_webhook { outcome := .response 301, elapsed := 1, now := 0 }
        hook0).1.last_test_status = some "success" ∧
    ¬(((test_webhook { outcome := .response 301, elapsed := 1, now := 0 }
        hook0).1.last_test_status = some "failed") ↔
      ¬(200 ≤ 301 ∧ 301 < 300)) := by
  constructor
  · rfl
  · intro hiff
    have h2 := hiff.mpr (by omega)
    exact absurd (Option.some.inj h2) (by decide)

/-- C9, amended: a synchronous test delivery returns its outcome (status
code and rounded latency, or the error text) to the caller, and records
`last_test_status = "failed"` exactly when the attempt raised a request
error or received a response status of 400 or above; any response below
400 (including 3xx) records `"success"`. -/
theorem C9_test_delivery_amended (env : TestEnv) (w : Webhook) :
    ((test_webhook env w).1.last_test_status = some "failed" ↔
      ((∃ m, env.outcome = .requestError m) ∨
       (∃ c, env.outcome = .response c ∧ 400 ≤ c))) ∧
    (∀ c, env.outcome = .response c →
      (test_webhook env w).2.success = true ∧
      (test_webhook env w).2.status_code = some c ∧
      (test_webhook env w).2.response_time = round3 env.elapsed ∧
      (test_webhook env w).1.last_test_response_code = some c ∧
      (test_webhook env w).1.last_test_at = some env.now) ∧
    (∀ m, env.outcome = .requestError m →
      (test_webhook env w).2.success = false ∧
      (test_webhook env w).2.error = some ("Request failed: " ++ m) ∧
      (test_webhook env w).2.response_time = round3 env.elapsed ∧
      (test_webhook env w).1.last_test_response_code = none ∧
      (test_webhook env w).1.last_test_at = some env.now) := by
  obtain ⟨outcome, elapsed, now⟩ := env
  cases outcome with
  | response code =>
    refine ⟨?_, ?_, ?_⟩
    · dsimp only [test_webhook]
      by_cases hc : code < 400
      · rw [if_pos hc]
        constructor
        · intro hs
          exact absurd (Option.some.inj hs) (by decide)
        · rintro (⟨m, hm⟩ | ⟨c, hcv, hge⟩)
          · cases hm
          · cases hcv
            omega
      · rw [if_neg hc]
        constructor
        · intro _
          exact Or.inr ⟨code, rfl, by omega⟩
        · intro _
          rfl
    · intro c hcv
      cases hcv
      exact ⟨rfl, rfl, rfl, rfl, rfl⟩
    · intro m hm
      cases hm
  | requestError m =>
    refine ⟨?_, ?_, ?_⟩
    · dsimp only [test_webhook]
      constructor
      · intro _
        exact Or.inl ⟨m, rfl⟩
      · intro _
        rfl
    · intro c hcv
      cases hcv
    · intro m2 hm
      cases hm
      exact ⟨rfl, rfl, rfl, rfl, rfl⟩

/-- C9, witness: a 500 response records `failed` and is reported back. -/
theorem C9_test_delivery_amended_witness :
    (test_webhook { outcome := .response 500, elapsed := 2, now := 7 }
        hook0).1.last_test_status = some "failed" ∧
    (test_webhook { outcome := .response 500, elapsed := 2, now := 7 }
        hook0).2.status_code = some 500 :=
  ⟨(C9_test_delivery_amended { outcome := .response 500, elapsed := 2, now := 7 }
      hook0).1.mpr (Or.inr ⟨500, rfl, by omega⟩),
   ((C9_test_delivery_amended { outcome := .response 500, elapsed := 2, now := 7 }
      hook0).2.1 500 rfl).2.1⟩

/-- C3: when the final save succeeds, finalization persists status
`completed` with `processed_rows` forced to `total_rows`; and in every
persisted trace of the run, any snapshot whose status is `completed`
satisfies `processed_rows = total_rows`. -/
theorem C3_completed_eq_total (benv : Nat → BatchCallEnv) (env : RowEnv)
    (t : Nat) (headers : List String) (rows : List Row) (store0 : List Product) :
    (env.finalSaveRaises = false →
      (process_csv_file benv env t headers rows store0).final.status = "completed" ∧
      (process_csv_file benv env t headers rows store0).final.processed_rows =
        (process_csv_file benv env t headers rows store0).final.total_rows) ∧
    (∀ s ∈ (process_csv_file benv env t headers rows store0).trace,
      s.status = "completed" → s.processed_rows = s.total_rows) := by
  have hframe := loopFinalSt_dbFrame benv env t headers rows store0
  unfold process_csv_file
  cases hb : env.finalSaveRaises with
  | true =>
    simp only [if_true]
    constructor
    · intro hfalse
      cases hfalse
    · intro s hs
      simp only [List.mem_cons, List.mem_append, List.not_mem_nil,
        or_false] at hs
      rcases hs with hs | hs | hs
      · subst hs
        intro hcon
        exact absurd hcon (by decide : ¬(("processing" : String) = "completed"))
      · intro hcon
        rw [hframe.2.2.2 s hs] at hcon
        exact absurd hcon (by decide : ¬(("processing" : String) = "completed"))
      · subst hs
        intro hcon
        exact absurd hcon (by decide : ¬(("failed" : String) = "completed"))
  | false =>
    simp only [Bool.false_eq_true, if_false]
    constructor
    · intro _
      constructor <;> trivial
    · intro s hs
      simp only [List.mem_cons, List.mem_append, List.not_mem_nil,
        or_false] at hs
      rcases hs with hs | hs | hs
      · subst hs
        intro hcon
        exact absurd hcon (by decide : ¬(("processing" : String) = "completed"))
      · intro hcon
        rw [hframe.2.2.2 s hs] at hcon
        exact absurd hcon (by decide : ¬(("processing" : String) = "completed"))
      · subst hs
        intro _
        rfl

/-- C3, witness at a concrete one-row run. -/
theorem C3_completed_eq_total_witness :
    (envIdeal.finalSaveRaises = false →
      (process_csv_file benvIdeal envIdeal 1 stdHeaders [validRowA] []).final.status =
        "completed" ∧
      (process_csv_file benvIdeal envIdeal 1 stdHeaders [validRowA] []).final.processed_rows =
        (process_csv_file benvIdeal envIdeal 1 stdHeaders [validRowA] []).final.total_rows) ∧
    (∀ s ∈ (process_csv_file benvIdeal envIdeal 1 stdHeaders [validRowA] []).trace,
      s.status = "completed" → s.processed_rows = s.total_rows) :=
  C3_completed_eq_total benvIdeal envIdeal 1 stdHeaders [validRowA] []

/-- C4: on the normal path the persisted `error_count` equals the number
of accumulated error entries; when more than 100 errors accumulated the
final error log is exactly the first 100 entries joined by newlines plus
one overflow marker carrying the number of omitted entries; with 1 to 100
errors the log is exactly all entries and no marker; with none the log
stays empty. -/
theorem C4_error_log_cap (benv : Nat → BatchCallEnv) (env : RowEnv)
    (t : Nat) (headers : List String) (rows : List Row) (store0 : List Product)
    (h : env.finalSaveRaises = false) :
    (process_csv_file benv env t headers rows store0).final.error_count =
      (process_csv_file benv env t headers rows store0).errors.length ∧
    (100 < (process_csv_file benv env t headers rows store0).errors.length →
      (process_csv_file benv env t headers rows store0).final.error_log =
        some (String.intercalate "
"
            ((process_csv_file benv env t headers rows store0).errors.take 100) ++
          "
... and " ++
          toString ((process_csv_file benv env t headers rows store0).errors.length
            - 100) ++ " more errors")) ∧
    ((process_csv_file benv env t headers rows store0).errors ≠ [] →
      (process_csv_file benv env t headers rows store0).errors.length ≤ 100 →
      (process_csv_file benv env t headers rows store0).final.error_log =
        some (String.intercalate "
"
          (process_csv_file benv env t headers rows store0).errors)) ∧
    ((process_csv_file benv env t headers rows store0).errors = [] →
      (process_csv_file benv env t headers rows store0).final.error_log = none) := by
  have hframe := loopFinalSt_dbFrame benv env t headers rows store0
  have he := loopFinalSt_error benv env t headers rows store0
  have hel := loopFinalSt_errors_length benv env t headers rows store0
  unfold process_csv_file
  rw [h]
  simp only [Bool.false_eq_true, if_false]
  refine ⟨?_, ?_, ?_, ?_⟩
  · show (loopFinalSt benv env t headers rows store0).error =
      (loopFinalSt benv env t headers rows store0).errors.length
    rw [he, hel]
  · intro hbig
    show finalErrorLog (loopFinalSt benv env t headers rows store0).errors
      (loopFinalSt benv env t headers rows store0).db.error_log = _
    rw [hframe.2.2.1, finalErrorLog_big _ _ hbig]
  · intro hne hsmall
    show finalErrorLog (loopFinalSt benv env t headers rows store0).errors
      (loopFinalSt benv env t headers rows store0).db.error_log = _
    rw [hframe.2.2.1, finalErrorLog_small _ _ hne hsmall]
  · intro hnil
    show finalErrorLog (loopFinalSt benv env t headers rows store0).errors
      (loopFinalSt benv env t headers rows store0).db.error_log = _
    rw [hframe.2.2.1, hnil, finalErrorLog_nil]

/-- C4, witness at a run with two invalid rows. -/
theorem C4_error_log_cap_witness :
    (process_csv_file benvIdeal envIdeal 2 stdHeaders
        [missingRow, missingRow] []).final.error_count =
      (process_csv_file benvIdeal envIdeal 2 stdHeaders
        [missingRow, missingRow] []).errors.length ∧
    (100 < (process_csv_file benvIdeal envIdeal 2 stdHeaders
        [missingRow, missingRow] []).errors.length →
      (process_csv_file benvIdeal envIdeal 2 stdHeaders
          [missingRow, missingRow] []).final.error_log =
        some (String.intercalate "
"
            ((process_csv_file benvIdeal envIdeal 2 stdHeaders
              [missingRow, missingRow] []).errors.take 100) ++
          "
... and " ++
          toString ((process_csv_file benvIdeal envIdeal 2 stdHeaders
            [missingRow, missingRow] []).errors.length - 100) ++ " more errors")) ∧
    ((process_csv_file benvIdeal envIdeal 2 stdHeaders
        [missingRow, missingRow] []).errors ≠ [] →
      (process_csv_file benvIdeal envIdeal 2 stdHeaders
        [missingRow, missingRow] []).errors.length ≤ 100 →
      (process_csv_file benvIdeal envIdeal 2 stdHeaders
          [missingRow, missingRow] []).final.error_log =
        some (String.intercalate "
"
          (process_csv_file benvIdeal envIdeal 2 stdHeaders
            [missingRow, missingRow] []).errors)) ∧
    ((process_csv_file benvIdeal envIdeal 2 stdHeaders
        [missingRow, missingRow] []).errors = [] →
      (process_csv_file benvIdeal envIdeal 2 stdHeaders
        [missingRow, missingRow] []).final.error_log = none) :=
  C4_error_log_cap benvIdeal envIdeal 2 stdHeaders [missingRow, missingRow] [] rfl

/-- C6: whatever mixture of valid rows, invalid rows and per-row
exceptions the stream contains, and whatever the batch engine does, the
run completes: the final status is `completed`, each failing row is
counted in `error_count` and contributes exactly one error-log entry. -/
theorem C6_row_errors_absorbed (benv : Nat → BatchCallEnv) (env : RowEnv)
    (t : Nat) (headers : List String) (rows : List Row) (store0 : List Product)
    (h : env.finalSaveRaises = false) :
    (process_csv_file benv env t headers rows store0).final.status = "completed" ∧
    (process_csv_file benv env t headers rows store0).final.error_count =
      countFailing env (buildFieldnames headers) 0 rows ∧
    (process_csv_file benv env t headers rows store0).errors.length =
      countFailing env (buildFieldnames headers) 0 rows := by
  have he := loopFinalSt_error benv env t headers rows store0
  have hel := loopFinalSt_errors_length benv env t headers rows store0
  unfold process_csv_file
  rw [h]
  simp only [Bool.false_eq_true, if_false]
  refine ⟨by trivial, he, hel⟩

/-- C6, witness: a run mixing one valid row, one invalid row and one
per-row exception still completes with `error_count = 2`. -/
theorem C6_row_errors_absorbed_witness :
    (process_csv_file benvIdeal
        { rowException := fun i => if i = 2 then some "boom" else none,
          finalSaveRaises := false, fatalMsg := "" } 3 stdHeaders
        [validRowA, missingRow, validRowA] []).final.status = "completed" ∧
    (process_csv_file benvIdeal
        { rowException := fun i => if i = 2 then some "boom" else none,
          finalSaveRaises := false, fatalMsg := "" } 3 stdHeaders
        [validRowA, missingRow, validRowA] []).final.error_count =
      countFailing
        { rowException := fun i => if i = 2 then some "boom" else none,
          finalSaveRaises := false, fatalMsg := "" }
        (buildFieldnames stdHeaders) 0 [validRowA, missingRow, validRowA] ∧
    (process_csv_file benvIdeal
        { rowException := fun i => if i = 2 then some "boom" else none,
          finalSaveRaises := false, fatalMsg := "" } 3 stdHeaders
        [validRowA, missingRow, validRowA] []).errors.length =
      countFailing
        { rowException := fun i => if i = 2 then some "boom" else none,
          finalSaveRaises := false, fatalMsg := "" }
        (buildFieldnames stdHeaders) 0 [validRowA, missingRow, validRowA] :=
  C6_row_errors_absorbed benvIdeal
    { rowException := fun i => if i = 2 then some "boom" else none,
      finalSaveRaises := false, fatalMsg := "" } 3 stdHeaders
    [validRowA, missingRow, validRowA] [] rfl

/-- C10: when the final save raises, the failure handler persists only
`status = "failed"` and the failure reason as the error log; the
persisted counters are exactly those of the last checkpoint (or the
initial zeros when no checkpoint was written), and that is what a poller
of the failed session observes. -/
theorem C10_fatal_failure_frame (benv : Nat → BatchCallEnv) (env : RowEnv)
    (t : Nat) (headers : List String) (rows : List Row) (store0 : List Product)
    (h : env.finalSaveRaises = true) :
    (process_csv_file benv env t headers rows store0).final.status = "failed" ∧
    (process_csv_file benv env t headers rows store0).final.error_log =
      some ("Processing failed: " ++ env.fatalMsg) ∧
    (process_csv_file benv env t headers rows store0).final.processed_rows =
      ((process_csv_file benv env t headers rows store0).checkpoints.getLastD
        (runStart t)).processed_rows ∧
    (process_csv_file benv env t headers rows store0).final.success_count =
      ((process_csv_file benv env t headers rows store0).checkpoints.getLastD
        (runStart t)).success_count ∧
    (process_csv_file benv env t headers rows store0).final.error_count =
      ((process_csv_file benv env t headers rows store0).checkpoints.getLastD
        (runStart t)).error_count ∧
    (get_progress (process_csv_file benv env t headers rows store0).final).status =
      "failed" ∧
    (get_progress (process_csv_file benv env t headers rows store0).final).processed_rows =
      ((process_csv_file benv env t headers rows store0).checkpoints.getLastD
        (runStart t)).processed_rows ∧
    (get_progress (process_csv_file benv env t headers rows store0).final).success_count =
      ((process_csv_file benv env t headers rows store0).checkpoints.getLastD
        (runStart t)).success_count ∧
    (get_progress (process_csv_file benv env t headers rows store0).final).error_count =
      ((process_csv_file benv env t headers rows store0).checkpoints.getLastD
        (runStart t)).error_count := by
  have hlast := loopFinalSt_dbLast benv env t headers rows store0
  unfold DbLast at hlast
  unfold process_csv_file
  rw [h]
  simp only [if_true]
  rw [hlast]
  refine ⟨?_, ?_, ?_, ?_, ?_, ?_, ?_, ?_, ?_⟩ <;> trivial

/-- C10, witness: a short fatal run keeps the initial zero counters. -/
theorem C10_fatal_failure_frame_witness :
    (process_csv_file benvIdeal envFatal 1 stdHeaders [validRowA] []).final.status =
      "failed" ∧
    (process_csv_file benvIdeal envFatal 1 stdHeaders [validRowA] []).final.error_log =
      some ("Processing failed: " ++ envFatal.fatalMsg) ∧
    (process_csv_file benvIdeal envFatal 1 stdHeaders [validRowA] []).final.processed_rows =
      ((process_csv_file benvIdeal envFatal 1 stdHeaders [validRowA] []).checkpoints.getLastD
        (runStart 1)).processed_rows ∧
    (process_csv_file benvIdeal envFatal 1 stdHeaders [validRowA] []).final.success_count =
      ((process_csv_file benvIdeal envFatal 1 stdHeaders [validRowA] []).checkpoints.getLastD
        (runStart 1)).success_count ∧
    (process_csv_file benvIdeal envFatal 1 stdHeaders [validRowA] []).final.error_count =
      ((process_csv_file benvIdeal envFatal 1 stdHeaders [validRowA] []).checkpoints.getLastD
        (runStart 1)).error_count ∧
    (get_progress (process_csv_file benvIdeal envFatal 1 stdHeaders
      [validRowA] []).final).status = "failed" ∧
    (get_progress (process_csv_file benvIdeal envFatal 1 stdHeaders
        [validRowA] []).final).processed_rows =
      ((process_csv_file benvIdeal envFatal 1 stdHeaders [validRowA] []).checkpoints.getLastD
        (runStart 1)).processed_rows ∧
    (get_progress (process_csv_file benvIdeal envFatal 1 stdHeaders
        [validRowA] []).final).success_count =
      ((process_csv_file benvIdeal envFatal 1 stdHeaders [validRowA] []).checkpoints.getLastD
        (runStart 1)).success_count ∧
    (get_progress (process_csv_file benvIdeal envFatal 1 stdHeaders
        [validRowA] []).final).error_count =
      ((process_csv_file benvIdeal envFatal 1 stdHeaders [validRowA] []).checkpoints.getLastD
        (runStart 1)).error_count :=
  C10_fatal_failure_frame benvIdeal envFatal 1 stdHeaders [validRowA] [] rfl

end ProductImporter
